import Mathlib

/-
Verification of the pyfuzz fuzzing engine core against its specification.

The development shallowly embeds the Python sources:
  pyfuzz/core/mutators.py       (Mutator, DictionaryMutator)
  pyfuzz/core/engine.py         (FuzzResult, FuzzingEngine)
  pyfuzz/monitors/crash_monitor.py (CrashInfo, CrashMonitor)

Modelling conventions:
  - bytes / bytearray values are List Nat with entries below 256;
  - hashlib.md5 is implemented in full (MD5 below) so that fingerprints
    are computed exactly as the program computes them;
  - the global generator of the random module is an entropy stream
    Nat → Nat; every primitive draw consumes one stream element and is
    mapped into the requested range, so universal statements over streams
    cover every outcome the Python generator can produce, and each
    outcome in range is reached by some stream;
  - operations that can raise (randint with an empty range, out-of-range
    bytearray indexing, random.choice on an empty sequence) return none;
  - wall-clock durations are rationals, file persistence is a list of
    records carried in the state, and wall-clock timestamp fields, which
    no claim mentions, are omitted.
-/

/-- Left rotation of a 32-bit word. -/
def MD5.rotl32 (x n : Nat) : Nat :=
  Nat.lor ((x <<< n) % 4294967296) (x >>> (32 - n))

/-- Round function F of MD5. -/
def MD5.fF (b c d : Nat) : Nat :=
  Nat.lor (Nat.land b c) (Nat.land (Nat.xor b 4294967295) d)

/-- Round function G of MD5. -/
def MD5.fG (b c d : Nat) : Nat :=
  Nat.lor (Nat.land d b) (Nat.land (Nat.xor d 4294967295) c)

/-- Round function H of MD5. -/
def MD5.fH (b c d : Nat) : Nat :=
  Nat.xor b (Nat.xor c d)

/-- Round function I of MD5. -/
def MD5.fI (b c d : Nat) : Nat :=
  Nat.xor c (Nat.lor b (Nat.xor d 4294967295))

/-- The 64 sine-derived additive constants of MD5. -/
def MD5.K : List Nat := [
  3614090360, 3905402710, 606105819, 3250441966, 4118548399, 1200080426, 2821735955, 4249261313,
  1770035416, 2336552879, 4294925233, 2304563134, 1804603682, 4254626195, 2792965006, 1236535329,
  4129170786, 3225465664, 643717713, 3921069994, 3593408605, 38016083, 3634488961, 3889429448,
  568446438, 3275163606, 4107603335, 1163531501, 2850285829, 4243563512, 1735328473, 2368359562,
  4294588738, 2272392833, 1839030562, 4259657740, 2763975236, 1272893353, 4139469664, 3200236656,
  681279174, 3936430074, 3572445317, 76029189, 3654602809, 3873151461, 530742520, 3299628645,
  4096336452, 1126891415, 2878612391, 4237533241, 1700485571, 2399980690, 4293915773, 2240044497,
  1873313359, 4264355552, 2734768916, 1309151649, 4149444226, 3174756917, 718787259, 3951481745]

/-- The 64 per-step rotation amounts of MD5. -/
def MD5.S : List Nat := [
  7, 12, 17, 22, 7, 12, 17, 22, 7, 12, 17, 22, 7, 12, 17, 22,
  5, 9, 14, 20, 5, 9, 14, 20, 5, 9, 14, 20, 5, 9, 14, 20,
  4, 11, 16, 23, 4, 11, 16, 23, 4, 11, 16, 23, 4, 11, 16, 23,
  6, 10, 15, 21, 6, 10, 15, 21, 6, 10, 15, 21, 6, 10, 15, 21]

/-- Working state of the MD5 compression function. -/
structure MD5.St where
  a : Nat
  b : Nat
  c : Nat
  d : Nat

/-- Little-endian byte serialization of a number, k bytes. -/
def MD5.leBytes (n : Nat) : Nat → List Nat
  | 0 => []
  | Nat.succ k => n % 256 :: MD5.leBytes (n / 256) k

/-- Group a byte list into little-endian 32-bit words. -/
def MD5.toWords : List Nat → List Nat
  | b0 :: b1 :: b2 :: b3 :: rest =>
      (b0 + 256 * b1 + 65536 * b2 + 16777216 * b3) :: MD5.toWords rest
  | _ => []

/-- One of the 64 MD5 steps, acting on the working state. -/
def MD5.stepRound (M : List Nat) (i : Nat) (st : MD5.St) : MD5.St :=
  let f :=
    if i < 16 then MD5.fF st.b st.c st.d
    else if i < 32 then MD5.fG st.b st.c st.d
    else if i < 48 then MD5.fH st.b st.c st.d
    else MD5.fI st.b st.c st.d
  let g :=
    if i < 16 then i
    else if i < 32 then (5 * i + 1) % 16
    else if i < 48 then (3 * i + 5) % 16
    else (7 * i) % 16
  let tmp := (f + st.a + MD5.K.getD i 0 + M.getD g 0) % 4294967296
  let nb := (st.b + MD5.rotl32 tmp (MD5.S.getD i 0)) % 4294967296
  ⟨st.d, nb, st.b, st.c⟩

/-- Compress one 64-byte chunk into the running state. -/
def MD5.processChunk (h : MD5.St) (chunk : List Nat) : MD5.St :=
  let M := MD5.toWords chunk
  let r := (List.range 64).foldl (fun st i => MD5.stepRound M i st) h
  ⟨(h.a + r.a) % 4294967296, (h.b + r.b) % 4294967296,
   (h.c + r.c) % 4294967296, (h.d + r.d) % 4294967296⟩

/-- MD5 padding: a 0x80 byte, zeros to 56 mod 64, then the 64-bit LE bit length. -/
def MD5.pad (msg : List Nat) : List Nat :=
  let zeros := (56 + 64 - (msg.length + 1) % 64) % 64
  msg ++ [128] ++ List.replicate zeros 0 ++
    MD5.leBytes (msg.length * 8 % 18446744073709551616) 8

/-- The MD5 digest of a byte list, as 16 bytes. -/
def MD5.digestBytes (msg : List Nat) : List Nat :=
  let padded := MD5.pad msg
  let h0 : MD5.St := ⟨1732584193, 4023233417, 2562383102, 271733878⟩
  let fin := (List.range (padded.length / 64)).foldl
    (fun h i => MD5.processChunk h ((padded.drop (64 * i)).take 64)) h0
  MD5.leBytes fin.a 4 ++ MD5.leBytes fin.b 4 ++ MD5.leBytes fin.c 4 ++ MD5.leBytes fin.d 4

/-- A lowercase hexadecimal digit. -/
def MD5.hexDigit (n : Nat) : Char :=
  if n < 10 then Char.ofNat (48 + n) else Char.ofNat (87 + n)

/-- Two lowercase hexadecimal digits of one byte. -/
def MD5.byteHex (b : Nat) : List Char :=
  [MD5.hexDigit (b / 16), MD5.hexDigit (b % 16)]

/-- Models hashlib md5 hexdigest: the lowercase hexadecimal MD5 digest of a byte list. -/
def md5hex (msg : List Nat) : String :=
  String.mk ((MD5.digestBytes msg).map MD5.byteHex).flatten

/-- UTF-8 encoding of one code point. -/
def utf8Bytes (c : Nat) : List Nat :=
  if c < 128 then [c]
  else if c < 2048 then [192 + c / 64, 128 + c % 64]
  else if c < 65536 then [224 + c / 4096, 128 + c / 64 % 64, 128 + c % 64]
  else [240 + c / 262144, 128 + c / 4096 % 64, 128 + c / 64 % 64, 128 + c % 64]

/-- UTF-8 bytes of a character list. -/
def charsEncode (cs : List Char) : List Nat :=
  (cs.map (fun ch => utf8Bytes ch.toNat)).flatten

/-- Models str.encode of Python: the UTF-8 bytes of a string. -/
def strEncode (s : String) : List Nat :=
  charsEncode s.data

/-- Models str.split of Python with a one-character separator, on the
character list of the string; the split of an empty text is one empty
group. -/
def splitOnChar (sep : Char) : List Char → List (List Char)
  | [] => [[]]
  | c :: rest =>
      match splitOnChar sep rest with
      | [] => [[c]]
      | grp :: gs => if c = sep then [] :: grp :: gs else (c :: grp) :: gs

/-- Models str.join of Python with a one-character separator. -/
def joinWith (sep : Char) : List (List Char) → List Char
  | [] => []
  | [l] => l
  | l :: ls => l ++ sep :: joinWith sep ls

/-- Entropy stream standing for the state of the global generator of the
random module: element i is the raw material for the i-th upcoming draw. -/
abbrev RNG : Type := Nat → Nat

/-- The stream after one draw has been consumed. -/
def RNG.shift (g : RNG) : RNG := fun n => g (n + 1)

/-- State-passing computation drawing from the global generator; none
models a raised exception. -/
def PyRand (α : Type) : Type := RNG → Option (α × RNG)

instance : Monad PyRand where
  pure a := fun g => some (a, g)
  bind m f := fun g =>
    match m g with
    | none => none
    | some (a, g2) => f a g2

/-- Lift a possibly-failing value into PyRand without consuming entropy. -/
def PyRand.lift {α : Type} (o : Option α) : PyRand α :=
  fun g => Option.map (fun a => (a, g)) o

/-- The value component of running a PyRand computation on a stream. -/
def runVal {α : Type} (m : PyRand α) (g : RNG) : Option α :=
  Option.map Prod.fst (m g)

/-- Models random.randint(0, n - 1) for a Python integer n: raises when
the range is empty (n = 0), else one draw mapped into [0, n - 1]. -/
def randBelow (n : Nat) : PyRand Nat :=
  fun g => if n = 0 then none else some (g 0 % n, RNG.shift g)

/-- Models random.randint(1, m): raises when the range is empty (m < 1),
else one draw mapped into [1, m]. -/
def randFrom1 (m : Nat) : PyRand Nat :=
  fun g => if m = 0 then none else some (1 + g 0 % m, RNG.shift g)

/-- Models random.choice: one draw selecting a list element; raises on an
empty sequence. -/
def pyChoice {α : Type} (l : List α) : PyRand α :=
  fun g =>
    match l[g 0 % l.length]? with
    | none => none
    | some a => some (a, RNG.shift g)

/-- Models the comparison of random.random() with 0.3: one draw; both
outcomes are reachable. -/
def chance3of10 : PyRand Bool :=
  fun g => some (g 0 % 10 < 3, RNG.shift g)

/-- Checked bytearray read data[pos]; raises when pos is out of range. -/
def byteGet (data : List Nat) (pos : Nat) : PyRand Nat :=
  PyRand.lift data[pos]?

/-- Checked bytearray write data[pos] = v; raises when pos is out of range. -/
def byteSet (data : List Nat) (pos v : Nat) : PyRand (List Nat) :=
  PyRand.lift (if pos < data.length then some (data.set pos v) else none)

/-- Bytearray slice assignment data[pos : pos + k] = repl for in-range
nonnegative bounds (Python clamps bounds beyond the end, as take and drop do). -/
def sliceAssign (data : List Nat) (pos k : Nat) (repl : List Nat) : List Nat :=
  data.take pos ++ repl ++ data.drop (pos + k)

/-- Boundary values of mutators.py known to trigger integer-related bugs. -/
def INTERESTING_8 : List Nat := [0, 1, 127, 128, 255]

/-- The 16-bit boundary values of mutators.py. -/
def INTERESTING_16 : List Nat := [0, 1, 32767, 32768, 65535]

/-- The 32-bit boundary values of mutators.py. -/
def INTERESTING_32 : List Nat := [0, 1, 2147483647, 2147483648, 4294967295]

/-- struct.pack of a 16-bit value, little-endian. -/
def pack16 (v : Nat) : List Nat := [v % 256, v / 256 % 256]

/-- struct.pack of a 32-bit value, little-endian. -/
def pack32 (v : Nat) : List Nat := [v % 256, v / 256 % 256, v / 65536 % 256, v / 16777216 % 256]

/-- Mutation strategy: flip one random bit of one random byte. -/
def Mutator.bit_flip (data : List Nat) : PyRand (List Nat) := do
  let pos ← randBelow data.length
  let bit ← randBelow 8
  let b ← byteGet data pos
  byteSet data pos (Nat.xor b (1 <<< bit))

/-- Mutation strategy: replace one random byte with a random value. -/
def Mutator.byte_flip (data : List Nat) : PyRand (List Nat) := do
  let pos ← randBelow data.length
  let v ← randBelow 256
  byteSet data pos v

/-- Mutation strategy: write an interesting boundary constant of 1, 2 or 4
bytes at a random position; the 2- and 4-byte writes are skipped when they
would extend past the end of the data. -/
def Mutator.insert_interesting (data : List Nat) : PyRand (List Nat) := do
  let pos ← randBelow data.length
  let c ← randBelow 3
  if c = 0 ∧ 1 ≤ data.length then do
    let v ← pyChoice INTERESTING_8
    byteSet data pos v
  else if c = 1 ∧ 2 ≤ data.length then do
    let v ← pyChoice INTERESTING_16
    if pos + 1 < data.length then
      pure (sliceAssign data pos 2 (pack16 v))
    else
      pure data
  else if c = 2 ∧ 4 ≤ data.length then do
    let v ← pyChoice INTERESTING_32
    if pos + 3 < data.length then
      pure (sliceAssign data pos 4 (pack32 v))
    else
      pure data
  else
    pure data

/-- Mutation strategy: delete a random contiguous chunk of bytes; inputs
of at most one byte are returned unchanged. -/
def Mutator.delete_bytes (data : List Nat) : PyRand (List Nat) := do
  if data.length ≤ 1 then
    pure data
  else do
    let pos ← randBelow data.length
    let len ← randFrom1 (min 10 (data.length - pos))
    pure (data.take pos ++ data.drop (pos + len))

/-- A list of fresh random bytes, modelling the comprehension in the
insert strategy, drawn left to right. -/
def randByteList : Nat → PyRand (List Nat)
  | 0 => pure []
  | Nat.succ k => do
    let b ← randBelow 256
    let rest ← randByteList k
    pure (b :: rest)

/-- Mutation strategy: splice 1 to 10 random bytes at a random position,
the end included. -/
def Mutator.insert_bytes (data : List Nat) : PyRand (List Nat) := do
  let pos ← randBelow (data.length + 1)
  let len ← randFrom1 10
  let fresh ← randByteList len
  pure (data.take pos ++ fresh ++ data.drop pos)

/-- Mutation strategy: exchange the bytes at two random positions; inputs
shorter than two bytes are returned unchanged. -/
def Mutator.swap_bytes (data : List Nat) : PyRand (List Nat) := do
  if data.length < 2 then
    pure data
  else do
    let pos1 ← randBelow data.length
    let pos2 ← randBelow data.length
    let b1 ← byteGet data pos1
    let b2 ← byteGet data pos2
    pure ((data.set pos1 b2).set pos2 b1)

/-- The mutate method of the base Mutator: empty input is returned
unchanged, otherwise one of the six strategies is chosen uniformly, in
the order they are listed in the source. -/
def Mutator.mutate (data : List Nat) : PyRand (List Nat) := do
  if data.length = 0 then
    pure data
  else do
    let i ← randBelow 6
    match i with
    | 0 => Mutator.bit_flip data
    | 1 => Mutator.byte_flip data
    | 2 => Mutator.insert_interesting data
    | 3 => Mutator.delete_bytes data
    | 4 => Mutator.insert_bytes data
    | _ => Mutator.swap_bytes data

/-- The built-in token dictionary of DictionaryMutator, as byte lists. -/
def DictionaryMutator.default_dictionary : List (List Nat) := [
  [123, 123],
  [125, 125],
  [60, 115, 99, 114, 105, 112, 116, 62],
  [60, 47, 115, 99, 114, 105, 112, 116, 62],
  [39],
  [34],
  [92],
  [0],
  [255],
  [37, 115],
  [37, 110],
  [37, 120],
  [46, 46, 47, 46, 46, 47, 46, 46, 47],
  [110, 117, 108, 108],
  [117, 110, 100, 101, 102, 105, 110, 101, 100],
  [45, 49],
  [48],
  [57, 57, 57, 57, 57, 57, 57, 57]]

/-- The dictionary an instance ends up with: the given one when it is a
non-empty list, else the built-in default, following the Python idiom
dictionary or [defaults] in which an empty list is falsy. -/
def DictionaryMutator.init_dictionary (dictionary : Option (List (List Nat))) : List (List Nat) :=
  match dictionary with
  | some d => if d = [] then DictionaryMutator.default_dictionary else d
  | none => DictionaryMutator.default_dictionary

/-- Splice a dictionary token at a random position; the token is drawn
before the position, as in the source. -/
def DictionaryMutator.insert_dictionary_token (dict : List (List Nat)) (data : List Nat) :
    PyRand (List Nat) := do
  let token ← pyChoice dict
  let pos ← randBelow (data.length + 1)
  pure (data.take pos ++ token ++ data.drop pos)

/-- The mutate method of DictionaryMutator: with probability 0.3 splice a
dictionary token, otherwise delegate to the base mutate. The 30 percent
branch is tested before the empty-input guard of the base class. -/
def DictionaryMutator.mutate (dict : List (List Nat)) (data : List Nat) : PyRand (List Nat) := do
  let useDict ← chance3of10
  if useDict then
    DictionaryMutator.insert_dictionary_token dict data
  else
    Mutator.mutate data

/-- Result of one fuzz case, from engine.py. -/
structure FuzzResult where
  input_data : List Nat
  crashed : Bool := false
  error_message : String := ""
  response_data : List Nat := []
  execution_time : Rat := 0
  coverage_hash : String := ""
deriving DecidableEq, Repr

/-- Session state of the FuzzingEngine: corpus, the two dedup sets, the
counters of FuzzStats, and the crash records persisted to disk (hash and
result), modelling the files written by save_crash. -/
structure EngineState where
  corpus : List (List Nat)
  seen_coverage : List String
  seen_crashes : List String
  total_executions : Nat
  unique_crashes : Nat
  unique_paths : Nat
  saved_crashes : List (String × FuzzResult)
deriving DecidableEq, Repr

/-- The crash fingerprint of the engine: md5 of the error message followed
by the input bytes, truncated to 16 hex digits. -/
def FuzzingEngine.hash_crash (result : FuzzResult) : String :=
  (md5hex (strEncode result.error_message ++ result.input_data)).take 16

/-- The save_crash step of the engine: persist the crashing input once per
engine fingerprint. -/
def FuzzingEngine.save_crash (st : EngineState) (result : FuzzResult) : EngineState :=
  let h := FuzzingEngine.hash_crash result
  if h ∈ st.seen_crashes then st
  else
    { st with
      seen_crashes := h :: st.seen_crashes,
      unique_crashes := st.unique_crashes + 1,
      saved_crashes := st.saved_crashes ++ [(h, result)] }

/-- The check_new_coverage step of the engine: admit the input to the
corpus iff its coverage fingerprint is non-empty and unseen. -/
def FuzzingEngine.check_new_coverage (st : EngineState) (result : FuzzResult) :
    Bool × EngineState :=
  if result.coverage_hash = ("") then (false, st)
  else if result.coverage_hash ∈ st.seen_coverage then (false, st)
  else
    (true,
      { st with
        seen_coverage := result.coverage_hash :: st.seen_coverage,
        corpus := st.corpus ++ [result.input_data],
        unique_paths := st.unique_paths + 1 })

/-- What one iteration of the run loop observes from the target call:
a returned result, an exception propagating out of the target function,
or a KeyboardInterrupt delivered during the iteration. -/
inductive IterEvent where
  | ret (r : FuzzResult)
  | raised
  | interrupt
deriving DecidableEq, Repr

/-- The body of one completed loop iteration: count the execution, persist
the crash when the result crashed, then check coverage, in source order. -/
def FuzzingEngine.step (st : EngineState) (r : FuzzResult) : EngineState :=
  let st1 := { st with total_executions := st.total_executions + 1 }
  let st2 := if r.crashed then FuzzingEngine.save_crash st1 r else st1
  (FuzzingEngine.check_new_coverage st2 r).2

/-- The run loop of the engine on a schedule of max_iterations iteration
events. Only KeyboardInterrupt is caught, so a raised target exception
ends the run at once; the Bool records whether the final summary block
after the loop is reached. -/
def FuzzingEngine.run (st : EngineState) : List IterEvent → EngineState × Bool
  | [] => (st, true)
  | IterEvent.ret r :: rest => FuzzingEngine.run (FuzzingEngine.step st r) rest
  | IterEvent.raised :: _ => (st, false)
  | IterEvent.interrupt :: _ => (st, true)

/-- Crash record of crash_monitor.py; the wall-clock timestamp field is
omitted, being used by no claim. -/
structure CrashInfo where
  crash_type : String
  error_message : String
  stack_trace : String := ""
  input_data : List Nat := []
deriving DecidableEq, Repr

/-- The crash fingerprint of the monitor: md5 of the crash type and the
first three lines of the stack trace, truncated to 12 hex digits. The
input bytes take no part in it. -/
def CrashInfo.crash_hash (c : CrashInfo) : String :=
  let trace_lines := (splitOnChar (Char.ofNat 10) c.stack_trace.data).take 3
  let trace_key := joinWith (Char.ofNat 10) trace_lines
  (md5hex (charsEncode (c.crash_type.data ++ Char.ofNat 58 :: trace_key))).take 12

/-- What one monitored call of the target does: return after some elapsed
wall-clock time, or raise one of the watched error kinds. -/
inductive CallOutcome where
  | ok (elapsed : Rat)
  | memoryError (msg : String) (trace : String)
  | recursionError (msg : String) (trace : String)
  | otherError (kind : String) (msg : String) (trace : String)
deriving DecidableEq, Repr

/-- The message text of a post-hoc timeout record. -/
def timeoutMessage (elapsed timeout : Rat) : String :=
  ("Execution took ") ++ toString elapsed ++ ("s (limit: ") ++ toString timeout ++ ("s)")

/-- The classification of execute_with_monitoring: the except clauses for
MemoryError, RecursionError and Exception, and the post-hoc timeout check
that runs only when the call returned. The timeout record is built
without a stack trace, so its trace is the empty string. -/
def CrashMonitor.classify (timeout : Rat) (input : List Nat) : CallOutcome → Option CrashInfo
  | CallOutcome.ok elapsed =>
      if timeout < elapsed then
        some { crash_type := ("timeout"),
               error_message := timeoutMessage elapsed timeout,
               input_data := input }
      else none
  | CallOutcome.memoryError msg trace =>
      some { crash_type := ("memory"), error_message := msg,
             stack_trace := trace, input_data := input }
  | CallOutcome.recursionError msg trace =>
      some { crash_type := ("recursion"), error_message := msg,
             stack_trace := trace, input_data := input }
  | CallOutcome.otherError kind msg trace =>
      some { crash_type := ("exception"), error_message := kind ++ (": ") ++ msg,
             stack_trace := trace, input_data := input }

/-- Dedup state of a CrashMonitor instance: the seen fingerprints and the
crash records persisted to disk. -/
structure MonitorState where
  seen_crashes : List String
  saved : List CrashInfo
deriving DecidableEq, Repr

/-- The save-if-new tail of execute_with_monitoring: persist the crash
info exactly when its fingerprint is unseen. -/
def CrashMonitor.record (ms : MonitorState) : Option CrashInfo → MonitorState
  | none => ms
  | some c =>
      if c.crash_hash ∈ ms.seen_crashes then ms
      else { seen_crashes := c.crash_hash :: ms.seen_crashes, saved := ms.saved ++ [c] }

/-- One monitored execution: classify the call outcome, then persist the
crash when it is new, returning the new state and the crash info. -/
def CrashMonitor.execute_with_monitoring (timeout : Rat) (ms : MonitorState)
    (input : List Nat) (oc : CallOutcome) : MonitorState × Option CrashInfo :=
  let ci := CrashMonitor.classify timeout input oc
  (CrashMonitor.record ms ci, ci)

/-- A whole sequence of monitored executions on one monitor instance. -/
def CrashMonitor.runAll (timeout : Rat) (ms : MonitorState) :
    List (List Nat × CallOutcome) → MonitorState
  | [] => ms
  | (input, oc) :: rest =>
      CrashMonitor.runAll timeout
        (CrashMonitor.execute_with_monitoring timeout ms input oc).1 rest

/-- The one fingerprint every timeout crash hashes to. -/
def timeout_fingerprint : String :=
  (md5hex (strEncode (("timeout") ++ (":")))).take 12

/-- How many of the persisted crash records are timeout records. -/
def countTimeouts (l : List CrashInfo) : Nat :=
  (l.filter (fun c => c.crash_type == ("timeout"))).length

/-- Stand-in for the output stream of the Mersenne Twister seeded with a
given value. The development relies only on the seeded stream being a
function of the seed, which is the reproducibility contract of
random.seed; the mixing constants are immaterial. -/
def mtStream (seed : Nat) : RNG :=
  fun i => (seed * 6364136223846793005 + i * 1442695040888963407) % 18446744073709551616

/-- Models the constructor of Mutator (and, through super, of
DictionaryMutator): a supplied seed re-seeds the global generator,
discarding its prior state; without a seed the prior state is kept. -/
def Mutator.init (seed : Option Nat) (prior : RNG) : RNG :=
  match seed with
  | some sd => mtStream sd
  | none => prior

/-- The outputs of successive mutate calls, threading the global generator
state through the calls; a raised call ends the sequence. -/
def mutateSeq (call : List Nat → PyRand (List Nat)) : RNG → List (List Nat) → List (Option (List Nat))
  | _, [] => []
  | g, d :: ds =>
      match call d g with
      | none => [none]
      | some (out, g2) => some out :: mutateSeq call g2 ds

/-- A small engine session state: the default corpus, nothing seen yet. -/
def engineState0 : EngineState := ⟨[[116, 101, 115, 116]], [], [], 0, 0, 0, []⟩

/-- A result that neither crashes nor carries a coverage fingerprint. -/
def benignResult : FuzzResult := { input_data := [116] }

/-- A result carrying a fresh coverage fingerprint. -/
def pathResult : FuzzResult := { input_data := [97], coverage_hash := ("path_1") }

/-- A crashing engine result; same error message as crashResultB, other
input bytes. -/
def crashResultA : FuzzResult :=
  { input_data := [0], crashed := true, error_message := ("ValueError: boom") }

/-- A crashing engine result; same error message as crashResultA, other
input bytes. -/
def crashResultB : FuzzResult :=
  { input_data := [1], crashed := true, error_message := ("ValueError: boom") }

/-- A monitor crash record; same category and same first three trace
lines as monitorCrashB, other input bytes and a different fourth line. -/
def monitorCrashA : CrashInfo :=
  { crash_type := ("exception"), error_message := ("ValueError: boom"),
    stack_trace := ("line1\nline2\nline3\nline4a"), input_data := [0] }

/-- A monitor crash record; same category and same first three trace
lines as monitorCrashA, other input bytes and a different fourth line. -/
def monitorCrashB : CrashInfo :=
  { crash_type := ("exception"), error_message := ("ValueError: boom"),
    stack_trace := ("line1\nline2\nline3\nline4b"), input_data := [1] }

set_option maxRecDepth 100000

theorem PyRand.bind_apply {α β : Type} (m : PyRand α) (f : α → PyRand β) (g : RNG) :
    (m >>= f) g = match m g with | none => none | some (a, g2) => f a g2 := rfl

theorem PyRand.pure_apply {α : Type} (a : α) (g : RNG) : (pure a : PyRand α) g = some (a, g) := rfl

theorem randBelow_pos (n : Nat) (g : RNG) (h : n ≠ 0) :
    randBelow n g = some (g 0 % n, RNG.shift g) := by
  simp [randBelow, h]

theorem randFrom1_pos (m : Nat) (g : RNG) (h : m ≠ 0) :
    randFrom1 m g = some (1 + g 0 % m, RNG.shift g) := by
  simp [randFrom1, h]

theorem pyChoice_some {α : Type} (l : List α) (g : RNG) (h : l ≠ []) :
    ∃ v ∈ l, pyChoice l g = some (v, RNG.shift g) := by
  have hlt : g 0 % l.length < l.length := Nat.mod_lt _ (List.length_pos.mpr h)
  refine ⟨l.get ⟨g 0 % l.length, hlt⟩, List.get_mem l _ hlt, ?_⟩
  simp [pyChoice, List.getElem?_eq_getElem hlt]

theorem byteGet_some (data : List Nat) (pos : Nat) (g : RNG) (h : pos < data.length) :
    ∃ b, data[pos]? = some b ∧ byteGet data pos g = some (b, g) := by
  refine ⟨data.get ⟨pos, h⟩, ?_, ?_⟩ <;>
    simp [byteGet, PyRand.lift, List.getElem?_eq_getElem h]

theorem byteSet_some (data : List Nat) (pos v : Nat) (g : RNG) (h : pos < data.length) :
    byteSet data pos v g = some (data.set pos v, g) := by
  simp [byteSet, PyRand.lift, h]

theorem isSome_of_runVal {α : Type} {m : PyRand α} {g : RNG} {x : α}
    (h : runVal m g = some x) : (m g).isSome = true := by
  unfold runVal at h
  cases hm : m g <;> simp [hm] at h ⊢

/-- Specification of the delete strategy, both the short-input guard and
the generic case. -/
theorem delete_bytes_spec (data : List Nat) (g : RNG) :
    (data.length ≤ 1 → runVal (Mutator.delete_bytes data) g = some data)
    ∧ (2 ≤ data.length →
        ∃ out k, runVal (Mutator.delete_bytes data) g = some out
          ∧ 1 ≤ k ∧ k ≤ 10 ∧ k ≤ data.length - g 0 % data.length
          ∧ out.length + k = data.length) := by
  constructor
  · intro h
    simp [Mutator.delete_bytes, if_pos h, runVal, PyRand.pure_apply]
  · intro h
    have h0 : data.length ≠ 0 := by omega
    have h1 : ¬ data.length ≤ 1 := by omega
    have hpos : g 0 % data.length < data.length := Nat.mod_lt _ (by omega)
    have hmin : min 10 (data.length - g 0 % data.length) ≠ 0 := by omega
    have hk : (RNG.shift g) 0 % min 10 (data.length - g 0 % data.length)
        < min 10 (data.length - g 0 % data.length) := Nat.mod_lt _ (by omega)
    have he : runVal (Mutator.delete_bytes data) g
        = some (data.take (g 0 % data.length) ++ data.drop (g 0 % data.length
            + (1 + (RNG.shift g) 0 % min 10 (data.length - g 0 % data.length)))) := by
      simp only [Mutator.delete_bytes, if_neg h1, PyRand.bind_apply,
        randBelow_pos _ _ h0, randFrom1_pos _ _ hmin, PyRand.pure_apply, runVal, Option.map]
    refine ⟨_, 1 + (RNG.shift g) 0 % min 10 (data.length - g 0 % data.length),
      he, by omega, by omega, by omega, ?_⟩
    simp only [List.length_append, List.length_take, List.length_drop]
    omega

/-- The C6 claim corrected: an input of length at least two always comes
back strictly shorter, by a run of 1 to 10 bytes bounded by the bytes
remaining from the chosen position; a one-byte (or empty) input is
returned unchanged. -/
theorem delete_bytes_shortens (data : List Nat) (g : RNG) :
    (data.length ≤ 1 → runVal (Mutator.delete_bytes data) g = some data)
    ∧ (2 ≤ data.length →
        ∃ out k, runVal (Mutator.delete_bytes data) g = some out
          ∧ 1 ≤ k ∧ k ≤ 10 ∧ k ≤ data.length - g 0 % data.length
          ∧ out.length + k = data.length ∧ out.length < data.length) := by
  obtain ⟨h1, h2⟩ := delete_bytes_spec data g
  refine ⟨h1, fun h => ?_⟩
  obtain ⟨out, k, he, hk1, hk2, hk3, hlen⟩ := h2 h
  exact ⟨out, k, he, hk1, hk2, hk3, hlen, by omega⟩

/-- Witness for delete_bytes_shortens at a one-byte input. -/
theorem delete_bytes_shortens_witness :
    ([1] : List Nat).length ≤ 1 ∧ runVal (Mutator.delete_bytes [1]) (fun _ => 0) = some [1] :=
  ⟨by decide, (delete_bytes_shortens [1] (fun _ => 0)).1 (by decide)⟩

/-- Counterexample to C6 as stated: the one-byte input, non-empty, is
returned unchanged by the delete strategy, so the output is not strictly
shorter. -/
theorem delete_bytes_counterexample :
    ([0] : List Nat) ≠ [] ∧ runVal (Mutator.delete_bytes [0]) (fun _ => 0) = some [0] := by
  decide

/-- The C9 claim: under an explicit seed the whole output sequence of a
mutator instance is a function of the seed and the inputs alone; the
state the global generator had before construction is discarded by
seeding, for the base variant and the dictionary variant alike. -/
theorem mutator_determinism (seed : Nat) (s1 s2 : RNG) (inputs : List (List Nat)) :
    mutateSeq Mutator.mutate (Mutator.init (some seed) s1) inputs
      = mutateSeq Mutator.mutate (Mutator.init (some seed) s2) inputs
    ∧ ∀ dict : List (List Nat),
        mutateSeq (DictionaryMutator.mutate dict) (Mutator.init (some seed) s1) inputs
          = mutateSeq (DictionaryMutator.mutate dict) (Mutator.init (some seed) s2) inputs :=
  ⟨rfl, fun _ => rfl⟩

/-- The C2 claim corrected: the base Mutator returns the empty input
unchanged on every call; the DictionaryMutator does so only on the calls
that do not take the 30 percent dictionary branch, which runs before the
empty-input guard of the base class: when that branch is taken on an
empty input the result is the chosen dictionary token itself. -/
theorem mutate_empty_amended (g : RNG) (dict : List (List Nat)) :
    runVal (Mutator.mutate []) g = some []
    ∧ (¬ g 0 % 10 < 3 → runVal (DictionaryMutator.mutate dict []) g = some [])
    ∧ (g 0 % 10 < 3 → dict ≠ [] →
        ∃ t ∈ dict, runVal (DictionaryMutator.mutate dict []) g = some t) := by
  refine ⟨rfl, ?_, ?_⟩
  · intro h
    simp [DictionaryMutator.mutate, PyRand.bind_apply, chance3of10, decide_eq_false h, runVal,
      Mutator.mutate, PyRand.pure_apply]
  · intro h hd
    obtain ⟨t, ht, hch⟩ := pyChoice_some dict (RNG.shift g) hd
    refine ⟨t, ht, ?_⟩
    simp [DictionaryMutator.mutate, PyRand.bind_apply, chance3of10, decide_eq_true h,
      DictionaryMutator.insert_dictionary_token, hch, randBelow_pos _ _ (by omega : (1:Nat) ≠ 0),
      runVal, PyRand.pure_apply]

/-- Witness for mutate_empty_amended at a stream avoiding the dictionary branch. -/
theorem mutate_empty_witness :
    runVal (Mutator.mutate []) (fun _ => 7) = some []
    ∧ ¬ (7 : Nat) % 10 < 3
    ∧ runVal (DictionaryMutator.mutate DictionaryMutator.default_dictionary []) (fun _ => 7) = some [] := by
  have h := mutate_empty_amended (fun _ => 7) DictionaryMutator.default_dictionary
  exact ⟨h.1, by decide, h.2.1 (by decide)⟩

/-- Counterexample to C2 as stated: on the stream that takes the
dictionary branch, the DictionaryMutator maps the empty input to the
first default token, not to the empty sequence. -/
theorem mutate_empty_counterexample :
    runVal (DictionaryMutator.mutate DictionaryMutator.default_dictionary []) (fun _ => 0)
      = some [123, 123]
    ∧ ([123, 123] : List Nat) ≠ [] := by
  decide

theorem cons_set_perm (xs : List Nat) (k b a : Nat) (h : xs[k]? = some b) :
    List.Perm (b :: xs.set k a) (a :: xs) := by
  induction xs generalizing k with
  | nil => simp at h
  | cons y ys ih =>
    cases k with
    | zero =>
      simp at h
      subst h
      simpa using List.Perm.swap a y ys
    | succ k =>
      simp at h
      have step1 : List.Perm (b :: y :: ys.set k a) (y :: b :: ys.set k a) :=
        List.Perm.swap y b (ys.set k a)
      have step2 : List.Perm (y :: b :: ys.set k a) (y :: a :: ys) :=
        List.Perm.cons y (ih k h)
      have step3 : List.Perm (y :: a :: ys) (a :: y :: ys) := List.Perm.swap a y ys
      simpa using (step1.trans step2).trans step3

theorem set_set_perm (l : List Nat) (i j b1 b2 : Nat)
    (h1 : l[i]? = some b1) (h2 : l[j]? = some b2) :
    List.Perm ((l.set i b2).set j b1) l := by
  induction l generalizing i j with
  | nil => simp at h1
  | cons x xs ih =>
    cases i with
    | zero =>
      simp at h1
      subst h1
      cases j with
      | zero => simp
      | succ j =>
        simp at h2
        simpa [List.set] using cons_set_perm xs j b2 x h2
    | succ i =>
      simp at h1
      cases j with
      | zero =>
        simp at h2
        subst h2
        simpa [List.set] using cons_set_perm xs i b1 x h1
      | succ j =>
        simp at h2
        simpa [List.set] using List.Perm.cons x (ih i j h1 h2)

theorem swap_bytes_spec (data : List Nat) (g : RNG) :
    (data.length < 2 → runVal (Mutator.swap_bytes data) g = some data)
    ∧ ∃ out, runVal (Mutator.swap_bytes data) g = some out ∧ List.Perm out data := by
  by_cases h : data.length < 2
  · have he : runVal (Mutator.swap_bytes data) g = some data := by
      simp [Mutator.swap_bytes, if_pos h, runVal, PyRand.pure_apply]
    exact ⟨fun _ => he, data, he, List.Perm.refl data⟩
  · have h0 : data.length ≠ 0 := by omega
    have hp1 : g 0 % data.length < data.length := Nat.mod_lt _ (by omega)
    have hp2 : (RNG.shift g) 0 % data.length < data.length := Nat.mod_lt _ (by omega)
    obtain ⟨b1, hb1, hg1⟩ := byteGet_some data (g 0 % data.length) (RNG.shift (RNG.shift g)) hp1
    obtain ⟨b2, hb2, hg2⟩ := byteGet_some data ((RNG.shift g) 0 % data.length)
      (RNG.shift (RNG.shift g)) hp2
    have he : runVal (Mutator.swap_bytes data) g
        = some ((data.set (g 0 % data.length) b2).set ((RNG.shift g) 0 % data.length) b1) := by
      simp only [Mutator.swap_bytes, if_neg h, PyRand.bind_apply,
        randBelow_pos _ _ h0, hg1, hg2, PyRand.pure_apply, runVal, Option.map]
    refine ⟨fun hc => absurd hc h, _, he, set_set_perm data _ _ b1 b2 hb1 hb2⟩

/-- The C8 claim: the swap strategy always returns a permutation of its
input, of the same length and with the same multiset of byte values, and
returns inputs shorter than two bytes unchanged. -/
theorem swap_bytes_permutes (data : List Nat) (g : RNG) :
    (data.length < 2 → runVal (Mutator.swap_bytes data) g = some data)
    ∧ ∃ out, runVal (Mutator.swap_bytes data) g = some out
        ∧ out.length = data.length
        ∧ (out : Multiset Nat) = (data : Multiset Nat)
        ∧ List.Perm out data := by
  obtain ⟨h1, out, he, hperm⟩ := swap_bytes_spec data g
  exact ⟨h1, out, he, hperm.length_eq, Quot.sound hperm, hperm⟩

/-- Witness for swap_bytes_permutes at a one-byte input. -/
theorem swap_bytes_permutes_witness :
    ([9] : List Nat).length < 2 ∧ runVal (Mutator.swap_bytes [9]) (fun _ => 0) = some [9] :=
  ⟨by decide, (swap_bytes_permutes [9] (fun _ => 0)).1 (by decide)⟩

theorem bit_flip_some (data : List Nat) (g : RNG) (h : data ≠ []) :
    ∃ out, runVal (Mutator.bit_flip data) g = some out ∧ out.length = data.length := by
  have h0 : data.length ≠ 0 := by simpa [List.length_eq_zero] using h
  have hpos : g 0 % data.length < data.length := Nat.mod_lt _ (Nat.pos_of_ne_zero h0)
  obtain ⟨b, hb, hget⟩ := byteGet_some data (g 0 % data.length) (RNG.shift (RNG.shift g)) hpos
  refine ⟨data.set (g 0 % data.length) (Nat.xor b (1 <<< ((RNG.shift g) 0 % 8))), ?_, by simp⟩
  simp only [Mutator.bit_flip, PyRand.bind_apply, randBelow_pos _ _ h0,
    randBelow_pos _ _ (by omega : (8 : Nat) ≠ 0), hget,
    byteSet_some _ _ _ _ hpos, runVal, Option.map]

theorem byte_flip_some (data : List Nat) (g : RNG) (h : data ≠ []) :
    ∃ out, runVal (Mutator.byte_flip data) g = some out ∧ out.length = data.length := by
  have h0 : data.length ≠ 0 := by simpa [List.length_eq_zero] using h
  have hpos : g 0 % data.length < data.length := Nat.mod_lt _ (Nat.pos_of_ne_zero h0)
  refine ⟨data.set (g 0 % data.length) ((RNG.shift g) 0 % 256), ?_, by simp⟩
  simp only [Mutator.byte_flip, PyRand.bind_apply, randBelow_pos _ _ h0,
    randBelow_pos _ _ (by omega : (256 : Nat) ≠ 0),
    byteSet_some _ _ _ _ hpos, runVal, Option.map]

theorem randByteList_some (k : Nat) (g : RNG) :
    ∃ bs g2, randByteList k g = some (bs, g2) ∧ bs.length = k := by
  induction k generalizing g with
  | zero => exact ⟨[], g, rfl, rfl⟩
  | succ k ih =>
    obtain ⟨bs, g2, hbs, hlen⟩ := ih (RNG.shift g)
    refine ⟨g 0 % 256 :: bs, g2, ?_, by simp [hlen]⟩
    simp only [randByteList, PyRand.bind_apply, randBelow_pos _ _ (by omega : (256 : Nat) ≠ 0),
      hbs, PyRand.pure_apply]

theorem insert_bytes_some (data : List Nat) (g : RNG) :
    ∃ out, runVal (Mutator.insert_bytes data) g = some out ∧ data.length < out.length := by
  have hlen : (RNG.shift g) 0 % 10 < 10 := Nat.mod_lt _ (by omega)
  obtain ⟨bs, g2, hbs, hbslen⟩ :=
    randByteList_some (1 + (RNG.shift g) 0 % 10) (RNG.shift (RNG.shift g))
  refine ⟨data.take (g 0 % (data.length + 1)) ++ bs ++ data.drop (g 0 % (data.length + 1)), ?_, ?_⟩
  · simp only [Mutator.insert_bytes, PyRand.bind_apply,
      randBelow_pos _ _ (by omega : data.length + 1 ≠ 0),
      randFrom1_pos _ _ (by omega : (10 : Nat) ≠ 0), hbs, PyRand.pure_apply, runVal, Option.map]
  · have hp : g 0 % (data.length + 1) ≤ data.length := by
      have := Nat.mod_lt (g 0) (show 0 < data.length + 1 by omega)
      omega
    simp only [List.length_append, List.length_take, List.length_drop, hbslen]
    omega

theorem insert_interesting_spec (data : List Nat) (g : RNG) (h : data ≠ []) :
    ∃ out, runVal (Mutator.insert_interesting data) g = some out ∧ out.length = data.length := by
  have h0 : data.length ≠ 0 := by simpa [List.length_eq_zero] using h
  have h1 : 1 ≤ data.length := Nat.one_le_iff_ne_zero.mpr h0
  have hpos : g 0 % data.length < data.length := Nat.mod_lt _ (Nat.pos_of_ne_zero h0)
  have h3 : (3 : Nat) ≠ 0 := by omega
  have hc : (RNG.shift g) 0 % 3 = 0 ∨ (RNG.shift g) 0 % 3 = 1 ∨ (RNG.shift g) 0 % 3 = 2 := by
    omega
  rcases hc with hc | hc | hc
  · obtain ⟨v, hv, hch⟩ := pyChoice_some INTERESTING_8 (RNG.shift (RNG.shift g))
      (by simp [INTERESTING_8])
    refine ⟨data.set (g 0 % data.length) v, ?_, by simp⟩
    simp [Mutator.insert_interesting, PyRand.bind_apply, randBelow_pos _ _ h0,
      randBelow_pos _ _ h3, hc, hch, byteSet_some _ _ _ _ hpos, runVal, h1]
  · by_cases h2 : 2 ≤ data.length
    · obtain ⟨v, hv, hch⟩ := pyChoice_some INTERESTING_16 (RNG.shift (RNG.shift g))
        (by simp [INTERESTING_16])
      by_cases hfit : g 0 % data.length + 1 < data.length
      · refine ⟨sliceAssign data (g 0 % data.length) 2 (pack16 v), ?_, ?_⟩
        · simp [Mutator.insert_interesting, PyRand.bind_apply, randBelow_pos _ _ h0,
            randBelow_pos _ _ h3, hc, hch, h2, hfit, runVal, PyRand.pure_apply]
        · simp only [sliceAssign, pack16, List.length_append, List.length_take,
            List.length_drop, List.length_cons, List.length_nil]
          omega
      · refine ⟨data, ?_, rfl⟩
        simp [Mutator.insert_interesting, PyRand.bind_apply, randBelow_pos _ _ h0,
          randBelow_pos _ _ h3, hc, hch, h2, hfit, runVal, PyRand.pure_apply]
    · refine ⟨data, ?_, rfl⟩
      simp [Mutator.insert_interesting, PyRand.bind_apply, randBelow_pos _ _ h0,
        randBelow_pos _ _ h3, hc, h2, runVal, PyRand.pure_apply]
  · by_cases h4 : 4 ≤ data.length
    · obtain ⟨v, hv, hch⟩ := pyChoice_some INTERESTING_32 (RNG.shift (RNG.shift g))
        (by simp [INTERESTING_32])
      by_cases hfit : g 0 % data.length + 3 < data.length
      · refine ⟨sliceAssign data (g 0 % data.length) 4 (pack32 v), ?_, ?_⟩
        · simp [Mutator.insert_interesting, PyRand.bind_apply, randBelow_pos _ _ h0,
            randBelow_pos _ _ h3, hc, hch, h4, hfit, runVal, PyRand.pure_apply]
        · simp only [sliceAssign, pack32, List.length_append, List.length_take,
            List.length_drop, List.length_cons, List.length_nil]
          omega
      · refine ⟨data, ?_, rfl⟩
        simp [Mutator.insert_interesting, PyRand.bind_apply, randBelow_pos _ _ h0,
          randBelow_pos _ _ h3, hc, hch, h4, hfit, runVal, PyRand.pure_apply]
    · refine ⟨data, ?_, rfl⟩
      simp [Mutator.insert_interesting, PyRand.bind_apply, randBelow_pos _ _ h0,
        randBelow_pos _ _ h3, hc, h4, runVal, PyRand.pure_apply]

theorem insert_interesting_skip16 (data : List Nat) (g : RNG) (hc : g 1 % 3 = 1)
    (h2 : 2 ≤ data.length) (hfit : ¬ g 0 % data.length + 1 < data.length) :
    runVal (Mutator.insert_interesting data) g = some data := by
  have h0 : data.length ≠ 0 := by omega
  have h3 : (3 : Nat) ≠ 0 := by omega
  have hc2 : (RNG.shift g) 0 % 3 = 1 := hc
  obtain ⟨v, hv, hch⟩ := pyChoice_some INTERESTING_16 (RNG.shift (RNG.shift g))
    (by simp [INTERESTING_16])
  simp [Mutator.insert_interesting, PyRand.bind_apply, randBelow_pos _ _ h0,
    randBelow_pos _ _ h3, hc2, hch, h2, hfit, runVal, PyRand.pure_apply]

theorem insert_interesting_skip32 (data : List Nat) (g : RNG) (hc : g 1 % 3 = 2)
    (h4 : 4 ≤ data.length) (hfit : ¬ g 0 % data.length + 3 < data.length) :
    runVal (Mutator.insert_interesting data) g = some data := by
  have h0 : data.length ≠ 0 := by omega
  have h3 : (3 : Nat) ≠ 0 := by omega
  have hc2 : (RNG.shift g) 0 % 3 = 2 := hc
  obtain ⟨v, hv, hch⟩ := pyChoice_some INTERESTING_32 (RNG.shift (RNG.shift g))
    (by simp [INTERESTING_32])
  simp [Mutator.insert_interesting, PyRand.bind_apply, randBelow_pos _ _ h0,
    randBelow_pos _ _ h3, hc2, hch, h4, hfit, runVal, PyRand.pure_apply]

/-- The C7 claim: on every non-empty input and every draw, each of the six
base strategies returns a value (no raised exception, hence no
out-of-range indexing, one-byte inputs included); the interesting-value
strategy never changes the length of the data, and skips the 2- and
4-byte writes, returning the input unchanged, whenever the write would
extend past the end. -/
theorem strategies_total (data : List Nat) (g : RNG) (h : data ≠ []) :
    (Mutator.bit_flip data g).isSome = true
    ∧ (Mutator.byte_flip data g).isSome = true
    ∧ (Mutator.insert_interesting data g).isSome = true
    ∧ (Mutator.delete_bytes data g).isSome = true
    ∧ (Mutator.insert_bytes data g).isSome = true
    ∧ (Mutator.swap_bytes data g).isSome = true
    ∧ Option.map List.length (runVal (Mutator.insert_interesting data) g) = some data.length
    ∧ (g 1 % 3 = 1 → 2 ≤ data.length → ¬ g 0 % data.length + 1 < data.length →
        runVal (Mutator.insert_interesting data) g = some data)
    ∧ (g 1 % 3 = 2 → 4 ≤ data.length → ¬ g 0 % data.length + 3 < data.length →
        runVal (Mutator.insert_interesting data) g = some data) := by
  obtain ⟨o1, e1, _⟩ := bit_flip_some data g h
  obtain ⟨o2, e2, _⟩ := byte_flip_some data g h
  obtain ⟨o3, e3, hlen3⟩ := insert_interesting_spec data g h
  have hdel : ∃ o, runVal (Mutator.delete_bytes data) g = some o := by
    rcases Nat.lt_or_ge data.length 2 with hl | hl
    · exact ⟨data, (delete_bytes_spec data g).1 (by omega)⟩
    · obtain ⟨o, k, ho, _⟩ := (delete_bytes_spec data g).2 hl
      exact ⟨o, ho⟩
  obtain ⟨o4, e4⟩ := hdel
  obtain ⟨o5, e5, _⟩ := insert_bytes_some data g
  obtain ⟨o6, e6, _⟩ := (swap_bytes_spec data g).2
  exact ⟨isSome_of_runVal e1, isSome_of_runVal e2, isSome_of_runVal e3, isSome_of_runVal e4,
    isSome_of_runVal e5, isSome_of_runVal e6, by rw [e3]; simpa using hlen3,
    insert_interesting_skip16 data g, insert_interesting_skip32 data g⟩

/-- Witness for strategies_total at a two-byte input and a stream that
triggers the skipped 16-bit write at the last position. -/
theorem strategies_total_witness :
    ([5, 6] : List Nat) ≠ []
    ∧ (Mutator.bit_flip [5, 6] (fun _ => 1)).isSome = true
    ∧ (Mutator.delete_bytes [5, 6] (fun _ => 1)).isSome = true
    ∧ Option.map List.length (runVal (Mutator.insert_interesting [5, 6]) (fun _ => 1)) = some 2
    ∧ runVal (Mutator.insert_interesting [5, 6]) (fun _ => 1) = some [5, 6] := by
  have h := strategies_total [5, 6] (fun _ => 1) (by decide)
  exact ⟨by decide, h.1, h.2.2.2.1, h.2.2.2.2.2.2.1,
    h.2.2.2.2.2.2.2.1 (by decide) (by decide) (by decide)⟩

/-- The C4 claim: admission appends to the corpus exactly when the
fingerprint is non-empty and unseen, leaves the state untouched
otherwise, and a second admission of the same fingerprint is refused
with the state unchanged. -/
theorem corpus_admit_spec (st : EngineState) (r : FuzzResult) :
    ((FuzzingEngine.check_new_coverage st r).1 = true
        ↔ r.coverage_hash ≠ ("") ∧ r.coverage_hash ∉ st.seen_coverage)
    ∧ ((FuzzingEngine.check_new_coverage st r).1 = true →
        (FuzzingEngine.check_new_coverage st r).2.corpus = st.corpus ++ [r.input_data])
    ∧ ((FuzzingEngine.check_new_coverage st r).1 = false →
        (FuzzingEngine.check_new_coverage st r).2 = st)
    ∧ FuzzingEngine.check_new_coverage (FuzzingEngine.check_new_coverage st r).2 r
        = (false, (FuzzingEngine.check_new_coverage st r).2) := by
  by_cases h1 : r.coverage_hash = ("")
  · simp [FuzzingEngine.check_new_coverage, h1]
  · by_cases h2 : r.coverage_hash ∈ st.seen_coverage
    · simp [FuzzingEngine.check_new_coverage, h1, h2]
    · simp [FuzzingEngine.check_new_coverage, h1, h2]

/-- Witness for corpus_admit_spec at a fresh fingerprint. -/
theorem corpus_admit_spec_witness :
    pathResult.coverage_hash ≠ ("")
    ∧ (FuzzingEngine.check_new_coverage engineState0 pathResult).1 = true
    ∧ (FuzzingEngine.check_new_coverage engineState0 pathResult).2.corpus
        = engineState0.corpus ++ [pathResult.input_data]
    ∧ FuzzingEngine.check_new_coverage
        (FuzzingEngine.check_new_coverage engineState0 pathResult).2 pathResult
      = (false, (FuzzingEngine.check_new_coverage engineState0 pathResult).2) := by
  have h := corpus_admit_spec engineState0 pathResult
  have ht : (FuzzingEngine.check_new_coverage engineState0 pathResult).1 = true :=
    h.1.mpr ⟨by decide, by decide⟩
  exact ⟨by decide, ht, h.2.1 ht, h.2.2.2⟩

/-- The C5 claim: the classifier follows the priority order of the except
clauses: memory, then recursion, then any other failure as exception with
the kind-prefixed message, then the post-hoc timeout check on successful
calls that ran longer than the limit, else no crash record. -/
theorem classify_priority_order (timeout : Rat) (input : List Nat) :
    (∀ msg trace, CrashMonitor.classify timeout input (CallOutcome.memoryError msg trace)
        = some { crash_type := ("memory"), error_message := msg,
                 stack_trace := trace, input_data := input })
    ∧ (∀ msg trace, CrashMonitor.classify timeout input (CallOutcome.recursionError msg trace)
        = some { crash_type := ("recursion"), error_message := msg,
                 stack_trace := trace, input_data := input })
    ∧ (∀ kind msg trace, CrashMonitor.classify timeout input (CallOutcome.otherError kind msg trace)
        = some { crash_type := ("exception"), error_message := kind ++ (": ") ++ msg,
                 stack_trace := trace, input_data := input })
    ∧ (∀ elapsed, timeout < elapsed →
        CrashMonitor.classify timeout input (CallOutcome.ok elapsed)
          = some { crash_type := ("timeout"), error_message := timeoutMessage elapsed timeout,
                   stack_trace := (""), input_data := input })
    ∧ (∀ elapsed, ¬ timeout < elapsed →
        CrashMonitor.classify timeout input (CallOutcome.ok elapsed) = none) := by
  refine ⟨fun _ _ => rfl, fun _ _ => rfl, fun _ _ _ => rfl, fun e he => ?_, fun e he => ?_⟩ <;>
    simp [CrashMonitor.classify, he]

/-- Witness for classify_priority_order at a run over and a run under
the limit. -/
theorem classify_priority_order_witness :
    (5 : Rat) < 6
    ∧ CrashMonitor.classify 5 [7] (CallOutcome.ok 6)
        = some { crash_type := ("timeout"), error_message := timeoutMessage 6 5,
                 stack_trace := (""), input_data := [7] }
    ∧ CrashMonitor.classify 5 [7] (CallOutcome.ok 3) = none
    ∧ CrashMonitor.classify 5 [7] (CallOutcome.memoryError ("m") ("t"))
        = some { crash_type := ("memory"), error_message := ("m"),
                 stack_trace := ("t"), input_data := [7] } := by
  have h := classify_priority_order 5 [7]
  exact ⟨by norm_num, h.2.2.2.1 6 (by norm_num), h.2.2.2.2 3 (by norm_num), h.1 ("m") ("t")⟩

theorem step_total_executions (st : EngineState) (r : FuzzResult) :
    (FuzzingEngine.step st r).total_executions = st.total_executions + 1 := by
  unfold FuzzingEngine.step FuzzingEngine.save_crash FuzzingEngine.check_new_coverage
  dsimp only
  split_ifs <;> rfl

/-- The C3 claim corrected: a crashing result never ends the run; when
every iteration yields a returned result the loop completes the whole
schedule, counting one execution per iteration, and the summary is
reached; a KeyboardInterrupt also reaches the summary; only an exception
raised by the target aborts the run without it. -/
theorem run_survives_crashes (st : EngineState) (events : List IterEvent) :
    ((∀ e ∈ events, e ≠ IterEvent.raised) → (FuzzingEngine.run st events).2 = true)
    ∧ ((∀ e ∈ events, ∃ r, e = IterEvent.ret r) →
        (FuzzingEngine.run st events).2 = true
        ∧ (FuzzingEngine.run st events).1.total_executions
            = st.total_executions + events.length) := by
  induction events generalizing st with
  | nil => simp [FuzzingEngine.run]
  | cons e rest ih =>
    constructor
    · intro h
      cases e with
      | ret r =>
        exact (ih (FuzzingEngine.step st r)).1 (fun x hx => h x (List.mem_cons_of_mem _ hx))
      | raised => exact absurd rfl (h _ (List.mem_cons_self _ _))
      | interrupt => simp [FuzzingEngine.run]
    · intro h
      cases e with
      | ret r =>
        have hr := (ih (FuzzingEngine.step st r)).2
          (fun x hx => h x (List.mem_cons_of_mem _ hx))
        refine ⟨hr.1, ?_⟩
        show (FuzzingEngine.run (FuzzingEngine.step st r) rest).1.total_executions = _
        rw [hr.2, step_total_executions]
        simp [Nat.add_comm, Nat.add_assoc, Nat.add_left_comm]
      | raised =>
        obtain ⟨r, hr⟩ := h _ (List.mem_cons_self _ _)
        exact absurd hr (by simp)
      | interrupt =>
        obtain ⟨r, hr⟩ := h _ (List.mem_cons_self _ _)
        exact absurd hr (by simp)

/-- Witness for run_survives_crashes on a one-iteration schedule. -/
theorem run_survives_crashes_witness :
    (FuzzingEngine.run engineState0 [IterEvent.ret benignResult]).2 = true
    ∧ (FuzzingEngine.run engineState0 [IterEvent.ret benignResult]).1.total_executions
        = engineState0.total_executions + 1 := by
  have h := (run_survives_crashes engineState0 [IterEvent.ret benignResult]).2
    (by intro e he; rw [List.mem_singleton] at he; exact ⟨benignResult, he⟩)
  exact ⟨h.1, h.2⟩

/-- Counterexample to C3 as stated: a target exception in the first of
two iterations ends the run with the initial state, zero executions out
of the two scheduled, and no summary. -/
theorem run_raised_counterexample :
    FuzzingEngine.run engineState0 [IterEvent.raised, IterEvent.ret benignResult]
      = (engineState0, false)
    ∧ engineState0.total_executions ≠ 2 := by
  constructor
  · rfl
  · decide

theorem timeout_record_hash (msg : String) (input : List Nat) :
    CrashInfo.crash_hash { crash_type := ("timeout"), error_message := msg,
                           stack_trace := (""), input_data := input }
      = timeout_fingerprint := rfl

theorem classify_timeout_type_hash (timeout : Rat) (input : List Nat) (oc : CallOutcome)
    (c : CrashInfo) (h : CrashMonitor.classify timeout input oc = some c)
    (ht : c.crash_type = ("timeout")) : c.crash_hash = timeout_fingerprint := by
  cases oc with
  | ok e =>
    have h2 : (if timeout < e then
        some ({ crash_type := ("timeout"), error_message := timeoutMessage e timeout,
                stack_trace := (""), input_data := input } : CrashInfo)
        else none) = some c := h
    by_cases he : timeout < e
    · rw [if_pos he] at h2
      obtain rfl := Option.some.inj h2
      exact timeout_record_hash _ _
    · rw [if_neg he] at h2
      exact Option.noConfusion h2
  | memoryError msg tr =>
    have h2 : some ({ crash_type := ("memory"), error_message := msg,
                      stack_trace := tr, input_data := input } : CrashInfo) = some c := h
    obtain rfl := Option.some.inj h2
    have hx : ("memory" : String) = ("timeout") := ht
    exact absurd hx (by decide)
  | recursionError msg tr =>
    have h2 : some ({ crash_type := ("recursion"), error_message := msg,
                      stack_trace := tr, input_data := input } : CrashInfo) = some c := h
    obtain rfl := Option.some.inj h2
    have hx : ("recursion" : String) = ("timeout") := ht
    exact absurd hx (by decide)
  | otherError kind msg tr =>
    have h2 : some ({ crash_type := ("exception"), error_message := kind ++ (": ") ++ msg,
                      stack_trace := tr, input_data := input } : CrashInfo) = some c := h
    obtain rfl := Option.some.inj h2
    have hx : ("exception" : String) = ("timeout") := ht
    exact absurd hx (by decide)

theorem countTimeouts_append (l : List CrashInfo) (c : CrashInfo) :
    countTimeouts (l ++ [c])
      = countTimeouts l + (if c.crash_type = ("timeout") then 1 else 0) := by
  by_cases hc : c.crash_type = ("timeout")
  · simp [countTimeouts, List.filter_append, hc]
  · simp [countTimeouts, List.filter_append, hc]

theorem runAll_timeout_invariant (timeout : Rat) (evs : List (List Nat × CallOutcome)) :
    ∀ ms : MonitorState,
      countTimeouts ms.saved ≤ 1 →
      (1 ≤ countTimeouts ms.saved → timeout_fingerprint ∈ ms.seen_crashes) →
      countTimeouts (CrashMonitor.runAll timeout ms evs).saved ≤ 1 := by
  induction evs with
  | nil =>
    intro ms h1 _
    simpa [CrashMonitor.runAll] using h1
  | cons ev rest ih =>
    intro ms h1 h2
    obtain ⟨input, oc⟩ := ev
    show countTimeouts (CrashMonitor.runAll timeout
      (CrashMonitor.execute_with_monitoring timeout ms input oc).1 rest).saved ≤ 1
    rcases hcl : CrashMonitor.classify timeout input oc with _ | c
    · have hst : (CrashMonitor.execute_with_monitoring timeout ms input oc).1 = ms := by
        simp [CrashMonitor.execute_with_monitoring, hcl, CrashMonitor.record]
      rw [hst]
      exact ih ms h1 h2
    · by_cases hseen : c.crash_hash ∈ ms.seen_crashes
      · have hst : (CrashMonitor.execute_with_monitoring timeout ms input oc).1 = ms := by
          simp [CrashMonitor.execute_with_monitoring, hcl, CrashMonitor.record, hseen]
        rw [hst]
        exact ih ms h1 h2
      · have hst : (CrashMonitor.execute_with_monitoring timeout ms input oc).1
            = ⟨c.crash_hash :: ms.seen_crashes, ms.saved ++ [c]⟩ := by
          simp [CrashMonitor.execute_with_monitoring, hcl, CrashMonitor.record, hseen]
        rw [hst]
        by_cases hty : c.crash_type = ("timeout")
        · have hhash := classify_timeout_type_hash timeout input oc c hcl hty
          have hcnt0 : countTimeouts ms.saved = 0 := by
            by_contra hc0
            exact hseen (hhash ▸ h2 (by omega))
          apply ih
          · rw [countTimeouts_append, if_pos hty]
            omega
          · intro _
            rw [← hhash]
            exact List.mem_cons_self _ _
        · apply ih
          · rw [countTimeouts_append, if_neg hty]
            omega
          · intro hcnt
            rw [countTimeouts_append, if_neg hty] at hcnt
            exact List.mem_cons_of_mem _ (h2 (by omega))

/-- The C10 claim: every timeout crash record is built with an empty stack
trace, all timeout records share one fingerprint, computed from the
category and trace alone, and over any whole run of one monitor instance
at most one timeout record is ever persisted. -/
theorem timeout_crash_dedup (timeout : Rat) :
    (∀ (input : List Nat) (elapsed : Rat), timeout < elapsed →
      CrashMonitor.classify timeout input (CallOutcome.ok elapsed)
        = some { crash_type := ("timeout"), error_message := timeoutMessage elapsed timeout,
                 stack_trace := (""), input_data := input }
      ∧ CrashInfo.crash_hash { crash_type := ("timeout"),
                                 error_message := timeoutMessage elapsed timeout,
                                 stack_trace := (""), input_data := input }
          = timeout_fingerprint)
    ∧ ∀ evs : List (List Nat × CallOutcome),
        countTimeouts (CrashMonitor.runAll timeout ⟨[], []⟩ evs).saved ≤ 1 := by
  constructor
  · intro input e he
    exact ⟨by simp [CrashMonitor.classify, he], timeout_record_hash _ _⟩
  · intro evs
    exact runAll_timeout_invariant timeout evs ⟨[], []⟩ (by simp [countTimeouts])
      (by simp [countTimeouts])

/-- Witness for timeout_crash_dedup at limit 1 with two timeout runs. -/
theorem timeout_crash_dedup_witness :
    (1 : Rat) < 2
    ∧ CrashMonitor.classify 1 [3] (CallOutcome.ok 2)
        = some { crash_type := ("timeout"), error_message := timeoutMessage 2 1,
                 stack_trace := (""), input_data := [3] }
    ∧ countTimeouts (CrashMonitor.runAll 1 ⟨[], []⟩
        [([3], CallOutcome.ok 2), ([4], CallOutcome.ok 9)]).saved ≤ 1 := by
  have h := timeout_crash_dedup 1
  exact ⟨by norm_num, (h.1 [3] 2 (by norm_num)).1, h.2 _⟩

/-- The C1 claim corrected for the monitor: two crash infos with the same
category and the same first three trace lines share one fingerprint,
whatever their input bytes, and the monitor persists only the first of
them. The engine fingerprint, by contrast, covers the input bytes; see
the counterexample. -/
theorem crash_fingerprint_monitor_dedup (c1 c2 : CrashInfo) (seen : List String)
    (saved : List CrashInfo)
    (htype : c1.crash_type = c2.crash_type)
    (htrace : (splitOnChar (Char.ofNat 10) c1.stack_trace.data).take 3
        = (splitOnChar (Char.ofNat 10) c2.stack_trace.data).take 3)
    (hnew : c1.crash_hash ∉ seen) :
    c1.crash_hash = c2.crash_hash
    ∧ CrashMonitor.record (CrashMonitor.record ⟨seen, saved⟩ (some c1)) (some c2)
        = ⟨c1.crash_hash :: seen, saved ++ [c1]⟩ := by
  have hh : c1.crash_hash = c2.crash_hash := by
    simp only [CrashInfo.crash_hash]
    rw [htype, htrace]
  refine ⟨hh, ?_⟩
  have h1 : CrashMonitor.record ⟨seen, saved⟩ (some c1)
      = ⟨c1.crash_hash :: seen, saved ++ [c1]⟩ := by
    simp [CrashMonitor.record, hnew]
  rw [h1]
  simp [CrashMonitor.record, ← hh]

/-- Witness for crash_fingerprint_monitor_dedup at two records equal up
to input bytes and the fourth trace line. -/
theorem crash_fingerprint_monitor_dedup_witness :
    monitorCrashA.crash_type = monitorCrashB.crash_type
    ∧ monitorCrashA.input_data ≠ monitorCrashB.input_data
    ∧ monitorCrashA.crash_hash = monitorCrashB.crash_hash
    ∧ CrashMonitor.record (CrashMonitor.record ⟨[], []⟩ (some monitorCrashA)) (some monitorCrashB)
        = ⟨monitorCrashA.crash_hash :: [], [] ++ [monitorCrashA]⟩ := by
  have h := crash_fingerprint_monitor_dedup monitorCrashA monitorCrashB [] []
    rfl (by decide) (by simp)
  exact ⟨rfl, by decide, h.1, h.2⟩

/-- The C1 counterexample: the fingerprint the engine computes covers the
input bytes: two crash results identical in every diagnostic respect
(same error message, hence same category and trace under any derivation)
but with different input bytes receive different engine fingerprints,
and the engine persists both of them. -/
theorem engine_fingerprint_counterexample :
    crashResultA.error_message = crashResultB.error_message
    ∧ crashResultA.input_data ≠ crashResultB.input_data
    ∧ FuzzingEngine.hash_crash crashResultA ≠ FuzzingEngine.hash_crash crashResultB
    ∧ (FuzzingEngine.save_crash (FuzzingEngine.save_crash engineState0 crashResultA)
        crashResultB).saved_crashes.length = 2 := by
  refine ⟨rfl, by decide, by decide, by decide⟩
